import Mathlib

/-!
Shallow embedding of the tetris engine in `src/lib.rs`.

The board in the source is a `Vec<Vec<String>>` where a cell is either the
empty-cell string or a styled block string; the engine logic only ever
compares a cell against the empty-cell string, so a cell is embedded as a
two-valued `Cell`.  Coordinates are `i16` in the source and are embedded as
`Int` (the boards in play are far below the `i16` range, so no wrap occurs).
The IO handles (`stdout`, `stdin`), colors and all rendering code are out of
scope; the tick loop `Game::run` is embedded as a step function `tick`
parametrized by the externally supplied random tetromino, the polled key and
the gravity-clock test, exactly following the loop body.
-/

set_option maxRecDepth 20000

namespace Tetris

/-- A board cell.  The source stores a styled string per cell and only ever
tests `cell != EMPTY_CELL`; `filled` stands for any non-empty string the
engine writes (`insert_falling` always writes a string containing the block
glyph, never the empty-cell string). -/
inductive Cell
  | empty
  | filled
deriving DecidableEq

/-- `board: Vec<Vec<String>>`, row major: `board[y][x]`.  The constructor
`Game::new` makes every row of length `width`, and the engine preserves
that, so rows always have length `width`. -/
abbrev Board := List (List Cell)

/-- `struct Point { x: i16, y: i16 }`. -/
structure Point where
  x : Int
  y : Int
deriving DecidableEq

/-- `AddAssign for Point`: componentwise addition. -/
def Point.add (p q : Point) : Point :=
  ⟨p.x + q.x, p.y + q.y⟩

/-- `struct Tetromino { blocks: [Point; 4], color: String }`; the color is
render-only (see `Cell`) and is dropped. -/
structure Tetromino where
  blocks : List Point
deriving DecidableEq

/-- `Tetromino::i()`. -/
def Tetromino.i : Tetromino := ⟨[⟨0, 0⟩, ⟨0, 1⟩, ⟨0, 2⟩, ⟨0, 3⟩]⟩

/-- `Tetromino::o()`. -/
def Tetromino.o : Tetromino := ⟨[⟨0, 0⟩, ⟨0, 1⟩, ⟨1, 0⟩, ⟨1, 1⟩]⟩

/-- `Tetromino::t()`. -/
def Tetromino.t : Tetromino := ⟨[⟨0, 0⟩, ⟨0, 1⟩, ⟨0, 2⟩, ⟨1, 1⟩]⟩

/-- `Tetromino::j()`. -/
def Tetromino.j : Tetromino := ⟨[⟨0, 1⟩, ⟨1, 1⟩, ⟨2, 0⟩, ⟨2, 1⟩]⟩

/-- `Tetromino::l()`. -/
def Tetromino.l : Tetromino := ⟨[⟨0, 0⟩, ⟨1, 0⟩, ⟨2, 0⟩, ⟨2, 1⟩]⟩

/-- `Tetromino::s()`. -/
def Tetromino.s : Tetromino := ⟨[⟨0, 1⟩, ⟨0, 2⟩, ⟨1, 0⟩, ⟨1, 1⟩]⟩

/-- `Tetromino::z()`. -/
def Tetromino.z : Tetromino := ⟨[⟨0, 0⟩, ⟨0, 1⟩, ⟨1, 1⟩, ⟨1, 2⟩]⟩

/-- `enum GameState { PLAY, LOSE }`. -/
inductive GameState
  | PLAY
  | LOSE
deriving DecidableEq

/-- `struct Game`, without the IO handles. -/
structure Game where
  board : Board
  score : Int
  width : Nat
  height : Nat
  falling : Option Tetromino
  state : GameState
deriving DecidableEq

def BOARD_WIDTH : Nat := 10

def BOARD_HEIGHT : Nat := 20

/-- `Game::new(width, height)`. -/
def Game.new (width height : Nat) : Game :=
  { board := List.replicate height (List.replicate width Cell.empty)
    score := 0
    width := width
    height := height
    falling := none
    state := GameState.PLAY }

/-- `Game::default()`. -/
def Game.default : Game := Game.new BOARD_WIDTH BOARD_HEIGHT

/-- Read `board[y][x]` with `Nat` indices.  All reads the engine performs are
bounds-guarded (a Rust out-of-bounds index would panic), so the default value
is never reached on the executions the theorems are about. -/
def getCellN (board : Board) (x y : Nat) : Cell :=
  (board.getD y []).getD x Cell.empty

/-- Read `board[y as usize][x as usize]` with the `i16` coordinates of the
source. -/
def getCell (board : Board) (x y : Int) : Cell :=
  getCellN board x.toNat y.toNat

/-- Write `board[y as usize][x as usize] = c`. -/
def setCell (board : Board) (x y : Int) (c : Cell) : Board :=
  board.set y.toNat ((board.getD y.toNat []).set x.toNat c)

/-- The per-block validation shared by `translate` and
`rotate_counter_clockwise`:
`new_x < 0 || new_x >= w || new_y < 0 || new_y >= h || board[new_y][new_x] != EMPTY_CELL`. -/
def block_invalid (w h : Nat) (board : Board) (p : Point) : Bool :=
  decide (p.x < 0) || decide ((w : Int) ≤ p.x) || decide (p.y < 0) ||
    decide ((h : Int) ≤ p.y) || decide (getCell board p.x p.y ≠ Cell.empty)

/-- `Game::translate`: return `false` and leave the piece untouched if any
block lands outside the board or on an occupied cell; otherwise add the
offset to every block and return `true`. -/
def translate (t : Tetromino) (offset : Point) (w h : Nat) (board : Board) :
    Tetromino × Bool :=
  if t.blocks.any (fun b => block_invalid w h board (Point.add b offset)) then
    (t, false)
  else
    ({ t with blocks := t.blocks.map (fun b => Point.add b offset) }, true)

/-- `Game::left`. -/
def left (t : Tetromino) (w h : Nat) (board : Board) : Tetromino × Bool :=
  translate t ⟨-1, 0⟩ w h board

/-- `Game::right`. -/
def right (t : Tetromino) (w h : Nat) (board : Board) : Tetromino × Bool :=
  translate t ⟨1, 0⟩ w h board

/-- `Game::down`. -/
def down (t : Tetromino) (w h : Nat) (board : Board) : Tetromino × Bool :=
  translate t ⟨0, 1⟩ w h board

/-- The rotation arithmetic of `Game::rotate_counter_clockwise` for one block:
`x = p.x - cx; y = p.y - cy; new_x = -y + cx; new_y = x + cy`. -/
def rot_point (c p : Point) : Point :=
  ⟨-(p.y - c.y) + c.x, (p.x - c.x) + c.y⟩

/-- `Game::rotate_counter_clockwise`: the pivot is the second listed block
`t.blocks[1]`; reject the whole rotation (returning the piece unchanged) if
any rotated block fails the bounds-and-emptiness check, else rotate every
block about the pivot. -/
def rotate_counter_clockwise (t : Tetromino) (w h : Nat) (board : Board) :
    Tetromino :=
  if t.blocks.any
      (fun b => block_invalid w h board (rot_point (t.blocks.getD 1 ⟨0, 0⟩) b)) then
    t
  else
    { t with blocks := t.blocks.map (rot_point (t.blocks.getD 1 ⟨0, 0⟩)) }

/-- `Game::insert_falling`: write every block of the falling piece into the
board, then drop the piece (`falling = None` in all cases). -/
def insert_falling (g : Game) : Game :=
  match g.falling with
  | some t =>
      { g with
        board := t.blocks.foldl (fun bd b => setCell bd b.x b.y Cell.filled) g.board
        falling := none }
  | none => { g with falling := none }

/-- `Game::done_falling`: some block rests on the floor
(`block.y >= height - 1`) or on an occupied cell (`board[y+1][x]` not empty). -/
def done_falling (g : Game) : Bool :=
  match g.falling with
  | some t =>
      t.blocks.any (fun b =>
        decide ((g.height : Int) - 1 ≤ b.y) ||
          decide (getCell g.board b.x (b.y + 1) ≠ Cell.empty))
  | none => false

/-- The occupied-cell count of row `i` computed by `clear_completed_lines`:
`for j in 0..width { if board[i][j] != EMPTY_CELL { occupied += 1 } }`. -/
def row_occupied_count (w : Nat) (board : Board) (i : Nat) : Nat :=
  ((List.range w).filter (fun j => decide (getCellN board j i ≠ Cell.empty))).length

/-- One iteration of the `clear_completed_lines` loop, at row `i`: award 100
if the row is fully occupied; if it is fully occupied or fully empty,
collapse it (reset row 0, otherwise copy the row above down and clear it). -/
def clear_row_step (w : Nat) (bs : Board × Int) (i : Nat) : Board × Int :=
  (if row_occupied_count w bs.1 i = 0 ∨ row_occupied_count w bs.1 i = w then
     (if i = 0 then bs.1.set 0 (List.replicate w Cell.empty)
      else (bs.1.set i (bs.1.getD (i - 1) [])).set (i - 1) (List.replicate w Cell.empty))
   else bs.1,
   if row_occupied_count w bs.1 i = w then bs.2 + 100 else bs.2)

/-- The rows `h - 1, h - 2, ..., 0` processed one after the other, written as
a recursion: `clear_pass w (n + 1)` handles row `n` first and then the rows
below `n`.  Used to state the scan order of the pass. -/
def clear_pass (w : Nat) : Nat → Board × Int → Board × Int
  | 0, bs => bs
  | n + 1, bs => clear_pass w n (clear_row_step w bs n)

/-- `Game::clear_completed_lines`: `for i in (0..height).rev() { ... }`. -/
def clear_completed_lines (g : Game) : Game :=
  { g with
    board := ((List.range g.height).reverse.foldl (clear_row_step g.width)
      (g.board, g.score)).1
    score := ((List.range g.height).reverse.foldl (clear_row_step g.width)
      (g.board, g.score)).2 }

/-- `Game::update_game_state`: lose when either of the two topmost cells of
the column `width / 2 - 1` is occupied. -/
def update_game_state (g : Game) : Game :=
  if getCellN g.board (g.width / 2 - 1) 0 ≠ Cell.empty ∨
      getCellN g.board (g.width / 2 - 1) 1 ≠ Cell.empty then
    { g with state := GameState.LOSE }
  else g

/-- The key commands the loop distinguishes; any other key is a no-op and is
modelled by passing `none`. -/
inductive Cmd
  | quit
  | leftKey
  | rightKey
  | downKey
  | rotKey
deriving DecidableEq

/-- The input dispatch of the loop body (the `match self.stdin.next()` arms
other than quit): left/right/rotate move the piece; the down key moves the
piece down and adds 1 to the score whether or not the move succeeded. -/
def handle_key (key : Option Cmd) (t : Tetromino) (g : Game) :
    Tetromino × Int :=
  match key with
  | some Cmd.leftKey => ((left t g.width g.height g.board).1, g.score)
  | some Cmd.downKey => ((down t g.width g.height g.board).1, g.score + 1)
  | some Cmd.rightKey => ((right t g.width g.height g.board).1, g.score)
  | some Cmd.rotKey => (rotate_counter_clockwise t g.width g.height g.board, g.score)
  | _ => (t, g.score)

/-- The tail of every loop iteration: lock the piece if it is done falling,
clear completed lines, then re-check the game-over condition (the draw calls
in between do not touch the game state). -/
def post_move_checks (g : Game) : Game :=
  update_game_state
    (clear_completed_lines (if done_falling g then insert_falling g else g))

/-- The spawn-centering offset `Point { x: (width / 2) as i16 - 1, y: 0 }`. -/
def spawn_offset (w : Nat) : Point :=
  ⟨Int.ofNat (w / 2) - 1, 0⟩

/-- One iteration of the `Game::run` loop.  `rnd` is the tetromino the random
source would return this tick, `key` the polled key, `grav` whether the
gravity clock has reached the fall interval.  A `LOSE` state breaks the loop
at the top, so the iteration returns the game unchanged; the quit key breaks
after the gravity move, skipping the checks; every other path runs
`post_move_checks` (done-falling, lock, clear, game-over re-check). -/
def tick (g : Game) (rnd : Tetromino) (key : Option Cmd) (grav : Bool) : Game :=
  if g.state = GameState.LOSE then g
  else
    match g.falling with
    | some t =>
        let t1 := if grav then (down t g.width g.height g.board).1 else t
        match key with
        | some Cmd.quit => { g with falling := some t1 }
        | _ =>
            post_move_checks
              { g with
                falling := some (handle_key key t1 g).1
                score := (handle_key key t1 g).2 }
    | none =>
        let r := translate rnd (spawn_offset g.width) g.width g.height g.board
        if r.2 then post_move_checks { g with falling := some r.1 }
        else
          post_move_checks { g with falling := some r.1, state := GameState.LOSE }

/-! Specification-side predicates, written from the words of the spec. -/

/-- The validity condition of the spec for one candidate position:
in bounds and on an empty cell. -/
def ValidPos (w h : Nat) (board : Board) (p : Point) : Prop :=
  0 ≤ p.x ∧ p.x < (w : Int) ∧ 0 ≤ p.y ∧ p.y < (h : Int) ∧
    getCell board p.x p.y = Cell.empty

instance (w h : Nat) (board : Board) (p : Point) :
    Decidable (ValidPos w h board p) := by
  unfold ValidPos; infer_instance

/-- A fully occupied row. -/
def RowFull (row : List Cell) : Prop := ∀ c ∈ row, c ≠ Cell.empty

instance (row : List Cell) : Decidable (RowFull row) := by
  unfold RowFull; infer_instance

/-- A fully empty row. -/
def RowBlank (row : List Cell) : Prop := ∀ c ∈ row, c = Cell.empty

instance (row : List Cell) : Decidable (RowBlank row) := by
  unfold RowBlank; infer_instance

/-- All four rotated positions of a piece are in bounds and on empty cells,
so a rotation about the second listed block commits. -/
def rotation_unobstructed (t : Tetromino) (w h : Nat) (board : Board) : Prop :=
  ∀ b ∈ t.blocks, ValidPos w h board (rot_point (t.blocks.getD 1 ⟨0, 0⟩) b)

instance (t : Tetromino) (w h : Nat) (board : Board) :
    Decidable (rotation_unobstructed t w h board) := by
  unfold rotation_unobstructed; infer_instance

/-! Concrete boards, pieces and games used by the scenario claim and by the
witnesses. -/

/-- `down` iterated `n` times against a fixed board (a rejected move leaves
the piece in place, as in the source). -/
def iterate_down (w h : Nat) (board : Board) : Nat → Tetromino → Tetromino
  | 0, t => t
  | n + 1, t => iterate_down w h board n (down t w h board).1

/-- The empty default board. -/
def board_empty_10x20 : Board :=
  List.replicate 20 (List.replicate 10 Cell.empty)

/-- An I piece spawned on the empty default board (centering translation of
`Game::run`). -/
def spawned_i : Tetromino :=
  (translate Tetromino.i (spawn_offset 10) 10 20 board_empty_10x20).1

/-- The spawned I piece after 19 `down` commands. -/
def dropped_i : Tetromino :=
  iterate_down 10 20 board_empty_10x20 19 spawned_i

/-- The game after locking the dropped I piece into the empty board. -/
def locked_game : Game :=
  insert_falling
    { board := board_empty_10x20, score := 0, width := 10, height := 20,
      falling := some dropped_i, state := GameState.PLAY }

/-- `locked_game` with the remaining 9 cells of row 19 filled by direct
construction. -/
def filled_game : Game :=
  { locked_game with
    board :=
      ([0, 1, 2, 3, 5, 6, 7, 8, 9] : List Int).foldl
        (fun bd j => setCell bd j 19 Cell.filled) locked_game.board }

/-- `filled_game` after one clearing pass. -/
def cleared_game : Game := clear_completed_lines filled_game

/-- A fresh default game already in the terminal state. -/
def lose_game : Game := { Game.new 10 20 with state := GameState.LOSE }

/-- A fresh default game whose spawn cell `(4, 0)` is occupied, so the
centering translation of a spawn fails. -/
def blocked_game : Game :=
  { Game.new 10 20 with board := setCell (Game.new 10 20).board 4 0 Cell.filled }

/-- A fresh default game with a vertical piece resting on the floor. -/
def landed_game : Game :=
  { Game.new 10 20 with
    falling := some ⟨[⟨4, 16⟩, ⟨4, 17⟩, ⟨4, 18⟩, ⟨4, 19⟩]⟩ }

/-- A T-shaped piece in the middle of the board, unobstructed for four
successive rotations. -/
def rot_piece : Tetromino := ⟨[⟨4, 5⟩, ⟨4, 6⟩, ⟨4, 7⟩, ⟨5, 6⟩]⟩

/-! Helper lemmas. -/

theorem ne_true_of_eq_false {b : Bool} (hb : b = false) : ¬ b = true := by
  rw [hb]
  exact Bool.false_ne_true

theorem block_invalid_eq_false_iff (w h : Nat) (board : Board) (p : Point) :
    block_invalid w h board p = false ↔ ValidPos w h board p := by
  unfold block_invalid ValidPos
  simp only [Bool.or_eq_false_iff, decide_eq_false_iff_not, not_lt, not_le, not_not, ne_eq]
  tauto

theorem rotate_of_unobstructed (t : Tetromino) (w h : Nat) (board : Board)
    (hu : rotation_unobstructed t w h board) :
    rotate_counter_clockwise t w h board =
      { t with blocks := t.blocks.map (rot_point (t.blocks.getD 1 ⟨0, 0⟩)) } := by
  have hany : ¬ t.blocks.any
      (fun b => block_invalid w h board (rot_point (t.blocks.getD 1 ⟨0, 0⟩) b)) = true := by
    rw [Bool.not_eq_true, List.any_eq_false]
    intro b hb
    rw [Bool.not_eq_true]
    exact block_invalid_eq_false_iff w h board _ |>.mpr (hu b hb)
  unfold rotate_counter_clockwise
  rw [if_neg hany]

theorem rot_point_self (c : Point) : rot_point c c = c := by
  cases c
  simp [rot_point]

theorem rot_point_four_times (c p : Point) :
    rot_point c (rot_point c (rot_point c (rot_point c p))) = p := by
  cases c
  cases p
  simp only [rot_point, Point.mk.injEq]
  constructor <;> ring

theorem map_getD_one (l : List Point) (f : Point → Point) (d : Point)
    (h : 2 ≤ l.length) : (l.map f).getD 1 d = f (l.getD 1 d) := by
  cases l with
  | nil => exact absurd h (by simp)
  | cons a l2 =>
      cases l2 with
      | nil => exact absurd h (by simp)
      | cons b l3 => rfl

/-- Claim C1: `translate` commits, adding the offset to all block positions,
exactly when every candidate position is in bounds and on an empty cell; on
any failure the piece is returned unmodified; `left`, `right`, `down` are
`translate` with offsets (-1, 0), (1, 0), (0, 1). -/
theorem C1_translate (t : Tetromino) (board : Board) (w h : Nat) (dx dy : Int) :
    ((translate t ⟨dx, dy⟩ w h board).2 = true ↔
      ∀ b ∈ t.blocks, ValidPos w h board ⟨b.x + dx, b.y + dy⟩) ∧
    ((translate t ⟨dx, dy⟩ w h board).2 = true →
      (translate t ⟨dx, dy⟩ w h board).1.blocks =
        t.blocks.map (fun b => ⟨b.x + dx, b.y + dy⟩)) ∧
    ((translate t ⟨dx, dy⟩ w h board).2 = false →
      (translate t ⟨dx, dy⟩ w h board).1 = t) ∧
    left t w h board = translate t ⟨-1, 0⟩ w h board ∧
    right t w h board = translate t ⟨1, 0⟩ w h board ∧
    down t w h board = translate t ⟨0, 1⟩ w h board := by
  have key : (t.blocks.any
      (fun b => block_invalid w h board (Point.add b ⟨dx, dy⟩)) = false) ↔
      ∀ b ∈ t.blocks, ValidPos w h board ⟨b.x + dx, b.y + dy⟩ := by
    rw [List.any_eq_false]
    constructor
    · intro hall b hb
      have := hall b hb
      rw [Bool.not_eq_true] at this
      exact block_invalid_eq_false_iff w h board _ |>.mp this
    · intro hall b hb
      rw [Bool.not_eq_true]
      exact block_invalid_eq_false_iff w h board _ |>.mpr (hall b hb)
  refine ⟨?_, ?_, ?_, rfl, rfl, rfl⟩
  · rw [← key]
    unfold translate
    cases hany : t.blocks.any (fun b => block_invalid w h board (Point.add b ⟨dx, dy⟩))
    · simp
    · simp
  · intro htrue
    unfold translate at htrue ⊢
    cases hany : t.blocks.any (fun b => block_invalid w h board (Point.add b ⟨dx, dy⟩))
    · simp [Point.add]
    · rw [if_pos hany] at htrue
      exact absurd htrue (by simp)
  · intro hfalse
    unfold translate at hfalse ⊢
    cases hany : t.blocks.any (fun b => block_invalid w h board (Point.add b ⟨dx, dy⟩))
    · rw [if_neg (ne_true_of_eq_false hany)] at hfalse
      exact absurd hfalse (by simp)
    · simp

theorem C1_translate_witness :
    (translate Tetromino.o ⟨4, 0⟩ 10 20 board_empty_10x20).1.blocks =
      [⟨4, 0⟩, ⟨4, 1⟩, ⟨5, 0⟩, ⟨5, 1⟩] := by
  have h := (C1_translate Tetromino.o board_empty_10x20 10 20 4 0).2.1 (by decide)
  rw [h]
  decide

/-- Claim C2: `rotate_counter_clockwise` rotates every block (x, y) to
(cx - (y - cy), cy + (x - cx)) about the pivot (cx, cy), the current
position of the second listed block, when all four new positions are in
bounds and on empty cells; otherwise the whole rotation is rejected and the
piece is unchanged (no wall-kick retries). -/
theorem C2_rotate (t : Tetromino) (board : Board) (w h : Nat) :
    (rotation_unobstructed t w h board →
      (rotate_counter_clockwise t w h board).blocks =
        t.blocks.map (fun b =>
          ⟨(t.blocks.getD 1 ⟨0, 0⟩).x - (b.y - (t.blocks.getD 1 ⟨0, 0⟩).y),
           (t.blocks.getD 1 ⟨0, 0⟩).y + (b.x - (t.blocks.getD 1 ⟨0, 0⟩).x)⟩)) ∧
    (¬ rotation_unobstructed t w h board →
      rotate_counter_clockwise t w h board = t) := by
  constructor
  · intro hu
    rw [rotate_of_unobstructed t w h board hu]
    exact List.map_congr_left (fun b _ => by
      cases b
      simp only [rot_point, Point.mk.injEq]
      constructor <;> ring)
  · intro hu
    have hany : t.blocks.any
        (fun b => block_invalid w h board (rot_point (t.blocks.getD 1 ⟨0, 0⟩) b)) = true := by
      by_contra hc
      rw [Bool.not_eq_true, List.any_eq_false] at hc
      apply hu
      intro b hb
      have := hc b hb
      rw [Bool.not_eq_true] at this
      exact block_invalid_eq_false_iff w h board _ |>.mp this
    unfold rotate_counter_clockwise
    rw [if_pos hany]

theorem C2_rotate_witness :
    (rotate_counter_clockwise rot_piece 10 20 board_empty_10x20).blocks =
      [⟨5, 6⟩, ⟨4, 6⟩, ⟨3, 6⟩, ⟨4, 7⟩] := by
  have h := (C2_rotate rot_piece board_empty_10x20 10 20).1 (by decide)
  rw [h]
  decide

/-- Claim C8: four successive unobstructed counter-clockwise rotations of a
four-block piece return it to exactly its original block positions. -/
theorem C8_rotation_four_times (t : Tetromino) (w h : Nat) (board : Board)
    (hlen : t.blocks.length = 4)
    (h1 : rotation_unobstructed t w h board)
    (h2 : rotation_unobstructed (rotate_counter_clockwise t w h board) w h board)
    (h3 : rotation_unobstructed
      (rotate_counter_clockwise (rotate_counter_clockwise t w h board) w h board) w h board)
    (h4 : rotation_unobstructed
      (rotate_counter_clockwise (rotate_counter_clockwise
        (rotate_counter_clockwise t w h board) w h board) w h board) w h board) :
    (rotate_counter_clockwise (rotate_counter_clockwise (rotate_counter_clockwise
      (rotate_counter_clockwise t w h board) w h board) w h board) w h board).blocks =
      t.blocks := by
  have e1 := rotate_of_unobstructed t w h board h1
  have b1 : (rotate_counter_clockwise t w h board).blocks =
      t.blocks.map (rot_point (t.blocks.getD 1 ⟨0, 0⟩)) := by rw [e1]
  have p1 : (rotate_counter_clockwise t w h board).blocks.getD 1 ⟨0, 0⟩ =
      t.blocks.getD 1 ⟨0, 0⟩ := by
    rw [b1, map_getD_one _ _ _ (by omega), rot_point_self]
  have e2 := rotate_of_unobstructed _ w h board h2
  have b2 : (rotate_counter_clockwise (rotate_counter_clockwise t w h board) w h board).blocks =
      (rotate_counter_clockwise t w h board).blocks.map
        (rot_point (t.blocks.getD 1 ⟨0, 0⟩)) := by rw [e2, p1]
  have len2 : (rotate_counter_clockwise t w h board).blocks.length = 4 := by
    rw [b1, List.length_map, hlen]
  have p2 : (rotate_counter_clockwise (rotate_counter_clockwise t w h board) w h board).blocks.getD
      1 ⟨0, 0⟩ = t.blocks.getD 1 ⟨0, 0⟩ := by
    rw [b2, map_getD_one _ _ _ (by omega), p1, rot_point_self]
  have e3 := rotate_of_unobstructed _ w h board h3
  have b3 : (rotate_counter_clockwise (rotate_counter_clockwise
      (rotate_counter_clockwise t w h board) w h board) w h board).blocks =
      (rotate_counter_clockwise (rotate_counter_clockwise t w h board) w h board).blocks.map
        (rot_point (t.blocks.getD 1 ⟨0, 0⟩)) := by rw [e3, p2]
  have len3 : (rotate_counter_clockwise (rotate_counter_clockwise t w h board)
      w h board).blocks.length = 4 := by
    rw [b2, List.length_map, len2]
  have p3 : (rotate_counter_clockwise (rotate_counter_clockwise
      (rotate_counter_clockwise t w h board) w h board) w h board).blocks.getD 1 ⟨0, 0⟩ =
      t.blocks.getD 1 ⟨0, 0⟩ := by
    rw [b3, map_getD_one _ _ _ (by omega), p2, rot_point_self]
  have e4 := rotate_of_unobstructed _ w h board h4
  have b4 : (rotate_counter_clockwise (rotate_counter_clockwise (rotate_counter_clockwise
      (rotate_counter_clockwise t w h board) w h board) w h board) w h board).blocks =
      (rotate_counter_clockwise (rotate_counter_clockwise
        (rotate_counter_clockwise t w h board) w h board) w h board).blocks.map
        (rot_point (t.blocks.getD 1 ⟨0, 0⟩)) := by rw [e4, p3]
  rw [b4, b3, b2, b1]
  simp only [List.map_map, Function.comp]
  refine (List.map_congr_left ?_).trans (List.map_id _)
  exact fun b _ => rot_point_four_times (t.blocks.getD 1 ⟨0, 0⟩) b

theorem C8_rotation_four_times_witness :
    (rotate_counter_clockwise (rotate_counter_clockwise (rotate_counter_clockwise
      (rotate_counter_clockwise rot_piece 10 20 board_empty_10x20) 10 20 board_empty_10x20)
      10 20 board_empty_10x20) 10 20 board_empty_10x20).blocks = rot_piece.blocks :=
  C8_rotation_four_times rot_piece 10 20 board_empty_10x20 (by decide) (by decide)
    (by decide) (by decide) (by decide)

/-- Claim C4: with an active piece whose blocks are in bounds, `done_falling`
holds exactly when some block sits on the floor row or directly above an
occupied cell; a piece with an empty in-bounds cell below every block is not
done falling. -/
theorem C4_done_falling (g : Game) (t : Tetromino)
    (ht : g.falling = some t)
    (hvalid : ∀ b ∈ t.blocks,
      0 ≤ b.x ∧ b.x < (g.width : Int) ∧ 0 ≤ b.y ∧ b.y < (g.height : Int)) :
    (done_falling g = true ↔
      ∃ b ∈ t.blocks, b.y = (g.height : Int) - 1 ∨
        getCell g.board b.x (b.y + 1) ≠ Cell.empty) ∧
    ((∀ b ∈ t.blocks, b.y + 1 < (g.height : Int) ∧
        getCell g.board b.x (b.y + 1) = Cell.empty) → done_falling g = false) := by
  have hmain : ∀ b ∈ t.blocks,
      ((decide ((g.height : Int) - 1 ≤ b.y) ||
        decide (getCell g.board b.x (b.y + 1) ≠ Cell.empty)) = true ↔
       (b.y = (g.height : Int) - 1 ∨ getCell g.board b.x (b.y + 1) ≠ Cell.empty)) := by
    intro b hb
    have hv := hvalid b hb
    simp only [Bool.or_eq_true, decide_eq_true_eq]
    constructor
    · rintro (h1 | h2)
      · exact Or.inl (by omega)
      · exact Or.inr h2
    · rintro (h1 | h2)
      · exact Or.inl (by omega)
      · exact Or.inr h2
  constructor
  · simp only [done_falling, ht, List.any_eq_true]
    constructor
    · rintro ⟨b, hb, hc⟩
      exact ⟨b, hb, (hmain b hb).mp hc⟩
    · rintro ⟨b, hb, hc⟩
      exact ⟨b, hb, (hmain b hb).mpr hc⟩
  · intro hclear
    simp only [done_falling, ht]
    rw [List.any_eq_false]
    intro b hb
    intro hc
    rcases (hmain b hb).mp hc with h1 | h2
    · have := (hclear b hb).1
      omega
    · exact h2 (hclear b hb).2

theorem C4_done_falling_witness : done_falling landed_game = true := by
  have h := (C4_done_falling landed_game ⟨[⟨4, 16⟩, ⟨4, 17⟩, ⟨4, 18⟩, ⟨4, 19⟩]⟩
    rfl (by decide)).1
  exact h.mpr (by decide)

theorem getD_set_self {α : Type} (l : List α) (n : Nat) (a d : α)
    (hn : n < l.length) : (l.set n a).getD n d = a := by
  rw [List.getD_eq_getElem?_getD, List.getElem?_set_self hn]
  rfl

theorem getD_set_ne {α : Type} (l : List α) (n m : Nat) (a d : α)
    (h : n ≠ m) : (l.set n a).getD m d = l.getD m d := by
  rw [List.getD_eq_getElem?_getD, List.getElem?_set_ne h, ← List.getD_eq_getElem?_getD]

theorem row_occupied_count_eq_w_iff (w : Nat) (board : Board) (i : Nat)
    (hlen : (board.getD i []).length = w) :
    row_occupied_count w board i = w ↔ RowFull (board.getD i []) := by
  unfold row_occupied_count RowFull
  constructor
  · intro hcount c hc
    have heq : (List.range w).filter
        (fun j => decide (getCellN board j i ≠ Cell.empty)) = List.range w :=
      (List.filter_sublist (List.range w)).eq_of_length
        (by rw [hcount, List.length_range])
    obtain ⟨j, hj, hjc⟩ := List.mem_iff_getElem.mp hc
    have hjmem : j ∈ List.range w := List.mem_range.mpr (by omega)
    have hmemf : j ∈ (List.range w).filter
        (fun j => decide (getCellN board j i ≠ Cell.empty)) := by
      rw [heq]
      exact hjmem
    have hp := (List.mem_filter.mp hmemf).2
    rw [decide_eq_true_eq] at hp
    have hcell : getCellN board j i = c := by
      unfold getCellN
      rw [List.getD_eq_getElem _ _ (by omega), hjc]
    rw [← hcell]
    exact hp
  · intro hfull
    have heq : (List.range w).filter
        (fun j => decide (getCellN board j i ≠ Cell.empty)) = List.range w := by
      rw [List.filter_eq_self]
      intro j hj
      rw [decide_eq_true_eq]
      have hjw := List.mem_range.mp hj
      unfold getCellN
      rw [List.getD_eq_getElem _ _ (by omega)]
      exact hfull _ (List.getElem_mem (by omega))
    rw [heq, List.length_range]

theorem row_occupied_count_eq_zero_iff (w : Nat) (board : Board) (i : Nat)
    (hlen : (board.getD i []).length = w) :
    row_occupied_count w board i = 0 ↔ RowBlank (board.getD i []) := by
  unfold row_occupied_count RowBlank
  rw [List.length_eq_zero, List.filter_eq_nil_iff]
  constructor
  · intro hall c hc
    obtain ⟨j, hj, hjc⟩ := List.mem_iff_getElem.mp hc
    have hno := hall j (List.mem_range.mpr (by omega))
    rw [Bool.not_eq_true, decide_eq_false_iff_not, not_not] at hno
    have hcell : getCellN board j i = c := by
      unfold getCellN
      rw [List.getD_eq_getElem _ _ (by omega), hjc]
    rw [← hcell]
    exact hno
  · intro hblank j hj
    rw [Bool.not_eq_true, decide_eq_false_iff_not, not_not]
    have hjw := List.mem_range.mp hj
    unfold getCellN
    rw [List.getD_eq_getElem _ _ (by omega)]
    exact hblank _ (List.getElem_mem (by omega))

theorem foldl_reverse_range_eq_clear_pass (w : Nat) :
    ∀ (n : Nat) (bs : Board × Int),
      (List.range n).reverse.foldl (clear_row_step w) bs = clear_pass w n bs := by
  intro n
  induction n with
  | zero => intro bs; rfl
  | succ m ih =>
      intro bs
      rw [List.range_succ, List.reverse_append, List.reverse_singleton,
        List.singleton_append, List.foldl_cons, ih]
      rfl

/-- Claim C3: one clearing pass scans rows from the bottom row `height - 1`
up to row 0 (the pass equals iterating the per-row step in that order); at
each row the step adds exactly 100 to the score precisely when the row is
fully occupied, collapses the row exactly when it is fully occupied or fully
empty (row 0 is reset to all empty, any other row receives the row above,
which is then cleared, other rows untouched), and leaves the board unchanged
otherwise. -/
theorem C3_clear_lines :
    (∀ g : Game,
      clear_completed_lines g =
        { g with
          board := (clear_pass g.width g.height (g.board, g.score)).1
          score := (clear_pass g.width g.height (g.board, g.score)).2 }) ∧
    (∀ (w i : Nat) (board : Board) (score : Int),
      (board.getD i []).length = w → i < board.length →
      ((clear_row_step w (board, score) i).2 =
        score + (if RowFull (board.getD i []) then 100 else 0)) ∧
      (¬ RowFull (board.getD i []) ∧ ¬ RowBlank (board.getD i []) →
        (clear_row_step w (board, score) i).1 = board) ∧
      ((RowFull (board.getD i []) ∨ RowBlank (board.getD i [])) →
        (i = 0 →
          (clear_row_step w (board, score) i).1.getD 0 [] =
            List.replicate w Cell.empty) ∧
        (i ≠ 0 →
          (clear_row_step w (board, score) i).1.getD i [] = board.getD (i - 1) [] ∧
          (clear_row_step w (board, score) i).1.getD (i - 1) [] =
            List.replicate w Cell.empty) ∧
        (∀ j, j ≠ i → j ≠ i - 1 →
          (clear_row_step w (board, score) i).1.getD j [] = board.getD j []))) := by
  constructor
  · intro g
    unfold clear_completed_lines
    rw [foldl_reverse_range_eq_clear_pass]
  · intro w i board score hlen hi
    have hfull := row_occupied_count_eq_w_iff w board i hlen
    have hblank := row_occupied_count_eq_zero_iff w board i hlen
    refine ⟨?_, ?_, ?_⟩
    · unfold clear_row_step
      dsimp only
      by_cases hF : RowFull (board.getD i [])
      · rw [if_pos (hfull.mpr hF), if_pos hF]
      · rw [if_neg (fun hc => hF (hfull.mp hc)), if_neg hF]
        omega
    · rintro ⟨hF, hB⟩
      unfold clear_row_step
      dsimp only
      rw [if_neg ?_]
      rintro (h0 | hw)
      · exact hB (hblank.mp h0)
      · exact hF (hfull.mp hw)
    · intro hFB
      have hcond : row_occupied_count w board i = 0 ∨
          row_occupied_count w board i = w := by
        rcases hFB with hF | hB
        · exact Or.inr (hfull.mpr hF)
        · exact Or.inl (hblank.mpr hB)
      unfold clear_row_step
      dsimp only
      rw [if_pos hcond]
      refine ⟨?_, ?_, ?_⟩
      · intro h0
        subst h0
        rw [if_pos rfl]
        exact getD_set_self _ _ _ _ (by omega)
      · intro hne
        rw [if_neg hne]
        constructor
        · rw [getD_set_ne _ (i - 1) i _ _ (by omega),
            getD_set_self _ _ _ _ (by omega)]
        · rw [getD_set_self _ _ _ _ (by rw [List.length_set]; omega)]
      · intro j hji hji1
        by_cases h0 : i = 0
        · subst h0
          rw [if_pos rfl]
          exact getD_set_ne _ _ _ _ _ (fun hc => hji hc.symm)
        · rw [if_neg h0]
          rw [getD_set_ne _ _ _ _ _ (fun hc => hji1 hc.symm),
            getD_set_ne _ _ _ _ _ (fun hc => hji hc.symm)]

theorem C3_clear_lines_witness :
    (clear_row_step 2 ([[Cell.empty, Cell.empty], [Cell.filled, Cell.filled]], 0) 1).2 = 100 := by
  have h := (C3_clear_lines.2 2 1 [[Cell.empty, Cell.empty], [Cell.filled, Cell.filled]] 0
    (by decide) (by decide)).1
  rw [h]
  decide

theorem insert_falling_state (g : Game) : (insert_falling g).state = g.state := by
  cases hf : g.falling <;> simp [insert_falling, hf]

theorem insert_falling_score (g : Game) : (insert_falling g).score = g.score := by
  cases hf : g.falling <;> simp [insert_falling, hf]

theorem insert_falling_width (g : Game) : (insert_falling g).width = g.width := by
  cases hf : g.falling <;> simp [insert_falling, hf]

theorem clear_completed_lines_state (g : Game) :
    (clear_completed_lines g).state = g.state := rfl

theorem clear_completed_lines_width (g : Game) :
    (clear_completed_lines g).width = g.width := rfl

theorem update_game_state_score (g : Game) :
    (update_game_state g).score = g.score := by
  unfold update_game_state
  split <;> rfl

theorem update_game_state_lose (g : Game) (hl : g.state = GameState.LOSE) :
    (update_game_state g).state = GameState.LOSE := by
  unfold update_game_state
  split
  · rfl
  · exact hl

theorem checked_state_eq (g : Game) :
    (clear_completed_lines (if done_falling g then insert_falling g else g)).state =
      g.state := by
  rw [clear_completed_lines_state]
  by_cases hd : done_falling g = true
  · rw [if_pos hd, insert_falling_state]
  · rw [if_neg hd]

theorem post_move_checks_state_lose (g : Game) (hl : g.state = GameState.LOSE) :
    (post_move_checks g).state = GameState.LOSE := by
  unfold post_move_checks
  exact update_game_state_lose _ (by rw [checked_state_eq]; exact hl)

theorem update_game_state_state (g : Game) :
    (update_game_state g).state = g.state ∨
      (update_game_state g).state = GameState.LOSE := by
  unfold update_game_state
  split
  · exact Or.inr rfl
  · exact Or.inl rfl

theorem post_move_checks_state (g : Game) :
    (post_move_checks g).state = g.state ∨
      (post_move_checks g).state = GameState.LOSE := by
  unfold post_move_checks
  rcases update_game_state_state
      (clear_completed_lines (if done_falling g then insert_falling g else g)) with h | h
  · rw [h, checked_state_eq]
    exact Or.inl rfl
  · rw [h]
    exact Or.inr rfl

theorem clear_row_step_score_le (w : Nat) (bs : Board × Int) (i : Nat) :
    bs.2 ≤ (clear_row_step w bs i).2 := by
  unfold clear_row_step
  dsimp only
  split <;> omega

theorem clear_pass_score_le (w : Nat) :
    ∀ (n : Nat) (bs : Board × Int), bs.2 ≤ (clear_pass w n bs).2 := by
  intro n
  induction n with
  | zero => intro bs; exact le_refl _
  | succ m ih =>
      intro bs
      calc bs.2 ≤ (clear_row_step w bs m).2 := clear_row_step_score_le w bs m
        _ ≤ (clear_pass w m (clear_row_step w bs m)).2 := ih _
        _ = (clear_pass w (m + 1) bs).2 := rfl

theorem clear_completed_lines_score_le (g : Game) :
    g.score ≤ (clear_completed_lines g).score := by
  unfold clear_completed_lines
  dsimp only
  rw [foldl_reverse_range_eq_clear_pass]
  exact clear_pass_score_le g.width g.height (g.board, g.score)

theorem post_move_checks_score_le (g : Game) :
    g.score ≤ (post_move_checks g).score := by
  unfold post_move_checks
  rw [update_game_state_score]
  by_cases hd : done_falling g = true
  · rw [if_pos hd]
    have h1 := clear_completed_lines_score_le (insert_falling g)
    rw [insert_falling_score] at h1
    exact h1
  · rw [if_neg hd]
    exact clear_completed_lines_score_le g

theorem handle_key_score_le (key : Option Cmd) (t : Tetromino) (g : Game) :
    g.score ≤ (handle_key key t g).2 := by
  cases key with
  | none => exact le_refl _
  | some c => cases c <;> simp [handle_key]

theorem tick_lose (g : Game) (rnd : Tetromino) (key : Option Cmd) (grav : Bool)
    (hl : g.state = GameState.LOSE) : tick g rnd key grav = g := by
  unfold tick
  rw [if_pos hl]

/-- Claim C5: with no active piece, the tick spawns the supplied random
shape translated by the centering offset ((width / 2) - 1, 0); if that
translation is rejected the game state is Game Over at the end of the tick
(the primary loss condition), and on success the tick proceeds with the
translated piece installed. -/
theorem C5_spawn (g : Game) (rnd : Tetromino) (key : Option Cmd) (grav : Bool)
    (hplay : g.state = GameState.PLAY) (hnone : g.falling = none) :
    ((translate rnd ⟨Int.ofNat (g.width / 2) - 1, 0⟩ g.width g.height g.board).2 = false →
      (tick g rnd key grav).state = GameState.LOSE) ∧
    ((translate rnd ⟨Int.ofNat (g.width / 2) - 1, 0⟩ g.width g.height g.board).2 = true →
      tick g rnd key grav =
        post_move_checks
          { g with
            falling := some (translate rnd ⟨Int.ofNat (g.width / 2) - 1, 0⟩
              g.width g.height g.board).1 }) := by
  have hnl : ¬ g.state = GameState.LOSE := by
    rw [hplay]
    decide
  have hsp : spawn_offset g.width = ⟨Int.ofNat (g.width / 2) - 1, 0⟩ := rfl
  constructor
  · intro hfail
    have h1 : tick g rnd key grav =
        post_move_checks
          { g with
            falling := some (translate rnd ⟨Int.ofNat (g.width / 2) - 1, 0⟩
              g.width g.height g.board).1
            state := GameState.LOSE } := by
      unfold tick
      rw [if_neg hnl, hnone]
      dsimp only
      rw [hsp, if_neg (ne_true_of_eq_false hfail)]
    rw [h1]
    exact post_move_checks_state_lose _ rfl
  · intro htrue
    unfold tick
    rw [if_neg hnl, hnone]
    dsimp only
    rw [hsp, if_pos htrue]

theorem C5_spawn_witness :
    (tick blocked_game Tetromino.i none false).state = GameState.LOSE :=
  (C5_spawn blocked_game Tetromino.i none false rfl rfl).1 (by decide)

/-- Claim C6: after the lock-and-clear steps of a tick, an occupied cell at
either of the two topmost cells of column width / 2 - 1 forces the Game Over
state; a tick of a Game Over state changes nothing, and no tick ever turns
the state back to Playing. -/
theorem C6_game_over_terminal :
    (∀ g : Game,
      (getCellN (clear_completed_lines
          (if done_falling g then insert_falling g else g)).board
          (g.width / 2 - 1) 0 ≠ Cell.empty ∨
       getCellN (clear_completed_lines
          (if done_falling g then insert_falling g else g)).board
          (g.width / 2 - 1) 1 ≠ Cell.empty) →
      (post_move_checks g).state = GameState.LOSE) ∧
    (∀ (g : Game) (rnd : Tetromino) (key : Option Cmd) (grav : Bool),
      g.state = GameState.LOSE → tick g rnd key grav = g) ∧
    (∀ (g : Game) (rnd : Tetromino) (key : Option Cmd) (grav : Bool),
      (tick g rnd key grav).state = GameState.PLAY → g.state = GameState.PLAY) := by
  refine ⟨?_, ?_, ?_⟩
  · intro g hcell
    have hw : (clear_completed_lines
        (if done_falling g then insert_falling g else g)).width = g.width := by
      rw [clear_completed_lines_width]
      by_cases hd : done_falling g = true
      · rw [if_pos hd, insert_falling_width]
      · rw [if_neg hd]
    have hcond : getCellN (clear_completed_lines
        (if done_falling g then insert_falling g else g)).board
        ((clear_completed_lines
          (if done_falling g then insert_falling g else g)).width / 2 - 1) 0 ≠ Cell.empty ∨
      getCellN (clear_completed_lines
        (if done_falling g then insert_falling g else g)).board
        ((clear_completed_lines
          (if done_falling g then insert_falling g else g)).width / 2 - 1) 1 ≠ Cell.empty := by
      rw [hw]
      exact hcell
    unfold post_move_checks update_game_state
    rw [if_pos hcond]
  · intro g rnd key grav hl
    exact tick_lose g rnd key grav hl
  · intro g rnd key grav
    cases hs : g.state with
    | PLAY => exact fun _ => rfl
    | LOSE =>
        intro hP
        rw [tick_lose g rnd key grav hs, hs] at hP
        exact absurd hP (by decide)

theorem C6_game_over_terminal_witness :
    tick lose_game Tetromino.i none false = lose_game :=
  C6_game_over_terminal.2.1 lose_game Tetromino.i none false rfl

/-- Claim C7: the soft-drop key always adds exactly 1 to the score, whether
or not the down move succeeded, and the score never decreases across a
tick. -/
theorem C7_soft_drop_and_monotone_score :
    (∀ (t : Tetromino) (g : Game),
      (handle_key (some Cmd.downKey) t g).2 = g.score + 1) ∧
    (∀ (g : Game) (rnd : Tetromino) (key : Option Cmd) (grav : Bool),
      g.score ≤ (tick g rnd key grav).score) := by
  constructor
  · intro t g
    rfl
  · intro g rnd key grav
    unfold tick
    by_cases hl : g.state = GameState.LOSE
    · rw [if_pos hl]
    · rw [if_neg hl]
      cases hf : g.falling with
      | none =>
          dsimp only
          split
          · exact post_move_checks_score_le _
          · exact post_move_checks_score_le _
      | some t =>
          dsimp only
          have hstep : ∀ (k : Option Cmd) (t1 : Tetromino),
              g.score ≤ (post_move_checks
                { g with falling := some (handle_key k t1 g).1
                         score := (handle_key k t1 g).2 }).score := by
            intro k t1
            exact le_trans (handle_key_score_le k t1 g) (post_move_checks_score_le _)
          cases key with
          | none => exact hstep none _
          | some c =>
              cases c with
              | quit => exact le_refl _
              | leftKey => exact hstep _ _
              | rightKey => exact hstep _ _
              | downKey => exact hstep _ _
              | rotKey => exact hstep _ _

/-- Claim C10: when the spawn-centering translation is rejected, the tick
still installs the untranslated tetromino as the falling piece and runs the
done-falling, lock and line-clear steps of the same tick on it; the state is
Game Over at the end of the tick, and the next tick changes nothing. -/
theorem C10_spawn_reject_runs_checks (g : Game) (rnd : Tetromino)
    (key : Option Cmd) (grav : Bool)
    (hplay : g.state = GameState.PLAY) (hnone : g.falling = none)
    (hfail : (translate rnd (spawn_offset g.width) g.width g.height g.board).2 = false) :
    tick g rnd key grav =
      post_move_checks { g with falling := some rnd, state := GameState.LOSE } ∧
    (tick g rnd key grav).state = GameState.LOSE ∧
    (∀ (rnd2 : Tetromino) (key2 : Option Cmd) (grav2 : Bool),
      tick (tick g rnd key grav) rnd2 key2 grav2 = tick g rnd key grav) := by
  have hnl : ¬ g.state = GameState.LOSE := by
    rw [hplay]
    decide
  have huntr : (translate rnd (spawn_offset g.width) g.width g.height g.board).1 = rnd := by
    unfold translate at hfail ⊢
    cases hany : rnd.blocks.any
        (fun b => block_invalid g.width g.height g.board (Point.add b (spawn_offset g.width)))
    · rw [if_neg (ne_true_of_eq_false hany)] at hfail
      exact absurd hfail (by simp)
    · simp
  have h1 : tick g rnd key grav =
      post_move_checks { g with falling := some rnd, state := GameState.LOSE } := by
    unfold tick
    rw [if_neg hnl, hnone]
    dsimp only
    rw [if_neg (ne_true_of_eq_false hfail), huntr]
  have h2 : (tick g rnd key grav).state = GameState.LOSE := by
    rw [h1]
    exact post_move_checks_state_lose _ rfl
  exact ⟨h1, h2, fun rnd2 key2 grav2 => tick_lose _ rnd2 key2 grav2 h2⟩

theorem C10_spawn_reject_runs_checks_witness :
    tick blocked_game Tetromino.o none true =
      post_move_checks
        { blocked_game with falling := some Tetromino.o, state := GameState.LOSE } :=
  (C10_spawn_reject_runs_checks blocked_game Tetromino.o none true rfl rfl (by decide)).1

/-- Claim C9, counterexample: in the 10 by 20 scenario the clearing pass
does not leave row 19 entirely empty; the block of the locked piece that was
in row 18 is shifted down into row 19 at column 4. -/
theorem C9_scenario_counterexample :
    ¬ RowBlank (cleared_game.board.getD 19 []) := by decide

/-- Claim C9, amended: on an empty 10 by 20 board the spawned I piece sits
at column 4 rows 0 to 3; after 19 `down` commands it rests with its bottom
block at row 19, and a 20th `down` is rejected leaving it unchanged; after
locking it, filling the remaining 9 cells of row 19 and running one clearing
pass, the score increases by exactly 100, and row 19 ends with exactly one
occupied cell, at column 4, the locked block shifted down from row 18 -
rather than being entirely empty. -/
theorem C9_scenario_amended :
    spawned_i.blocks = [⟨4, 0⟩, ⟨4, 1⟩, ⟨4, 2⟩, ⟨4, 3⟩] ∧
    dropped_i.blocks = [⟨4, 16⟩, ⟨4, 17⟩, ⟨4, 18⟩, ⟨4, 19⟩] ∧
    down dropped_i 10 20 board_empty_10x20 = (dropped_i, false) ∧
    cleared_game.score = filled_game.score + 100 ∧
    cleared_game.board.getD 19 [] =
      [Cell.empty, Cell.empty, Cell.empty, Cell.empty, Cell.filled,
       Cell.empty, Cell.empty, Cell.empty, Cell.empty, Cell.empty] :=
  ⟨by decide, by decide, by decide, by decide, by decide⟩

end Tetris
